import Mathlib

/-!
# Verification of the CredentialRegistry contract

Shallow embedding of `contracts/contracts/CredentialRegistry.sol` (a Solidity
contract built on OpenZeppelin `AccessControl`) together with the EIP-712
signature-authorized issuance path that the repository's README and frontend
reference.

Conventions:
* `bytes32` values (document hashes, role identifiers) and `address` values are
  modelled as `Nat`.
* `uint64` storage is modelled as `Nat` with an explicit `% 2 ^ 64` reduction at
  each store of a truncated value (`uint64(block.timestamp)`).
* Every external function takes the caller (`msg.sender`) and the block
  timestamp as explicit arguments and returns `Except Err State`; a revert
  (`require` failure or a failed `onlyRole` check) is an `.error`, which leaves
  the caller-observed state unchanged.
* Solidity events are modelled as entries appended to an explicit log list; the
  `seq` field records the position in the append-only log (the monotonically
  increasing sequence number the specification's EventLog exposes).
-/

namespace CredentialRegistry

abbrev Address := Nat
abbrev Hash := Nat

/-- OpenZeppelin `DEFAULT_ADMIN_ROLE` is `bytes32(0)`. -/
def DEFAULT_ADMIN_ROLE : Nat := 0

/-- `ISSUER_ROLE = keccak256("ISSUER_ROLE")` — modelled as a fixed nonzero
constant distinct from `DEFAULT_ADMIN_ROLE`. -/
def ISSUER_ROLE : Nat := 1

/-- `struct Record { uint64 issuedAt; bool revoked; address issuer; }` -/
structure Record where
  issuedAt : Nat
  revoked : Bool
  issuer : Address
deriving DecidableEq, Repr

/-- Solidity mapping default: a never-written `Record` is all zeroes. -/
def Record.initial : Record := ⟨0, false, 0⟩

/-- Kinds of events declared by the contract. -/
inductive EventKind where
  | Issued
  | Revoked
deriving DecidableEq, Repr

/-- One emitted event.  `actor` is the `issuer` argument of the Solidity event
(`msg.sender` at emission time), `timestamp` the emitted `uint64` timestamp and
`seq` the position in the append-only log. -/
structure Event where
  kind : EventKind
  docHash : Hash
  actor : Address
  timestamp : Nat
  seq : Nat
deriving DecidableEq, Repr

/-- Contract storage plus the event log.  `roles role account` is OpenZeppelin's
`_roles[role].hasRole[account]`; `records` is `mapping(bytes32 => Record)`;
`storageRefs` is the per-hash content-address string recorded by the
signature-authorized issuance path (the src contract's `Record` has no such
field; see the claims about `verify`). -/
structure State where
  roles : Nat → Address → Bool
  records : Hash → Record
  storageRefs : Hash → String
  log : List Event

/-- Error taxonomy of the specification.  The contract's reverts map as:
`onlyRole` failure ↦ `Unauthorized`, `require(..., "already issued")` ↦
`AlreadyIssued`, `require(..., "not issued")` ↦ `NotIssued`.  The remaining
kinds are named by the specification only. -/
inductive Err where
  | Unauthorized
  | AlreadyIssued
  | NotIssued
  | AlreadyRevoked
  | InvalidSignature
  | EncodingError
deriving DecidableEq, Repr

/-- `hasRole(role, account)` — pure read of the role table. -/
def hasRole (s : State) (role : Nat) (a : Address) : Bool :=
  s.roles role a

/-- OpenZeppelin `_grantRole`: set membership to `true` (no access check here;
the granting entry points add it). -/
def grantRoleInternal (roles : Nat → Address → Bool) (role : Nat) (a : Address) :
    Nat → Address → Bool :=
  fun r x => if r == role && x == a then true else roles r x

/-- OpenZeppelin `_revokeRole`: set membership to `false`. -/
def revokeRoleInternal (roles : Nat → Address → Bool) (role : Nat) (a : Address) :
    Nat → Address → Bool :=
  fun r x => if r == role && x == a then false else roles r x

/-- `constructor(address admin)`: grants `DEFAULT_ADMIN_ROLE` and `ISSUER_ROLE`
to `admin`; storage mappings start at their zero defaults and the log is empty. -/
def initialState (admin : Address) : State :=
  { roles := grantRoleInternal
      (grantRoleInternal (fun _ _ => false) DEFAULT_ADMIN_ROLE admin)
      ISSUER_ROLE admin
    records := fun _ => Record.initial
    storageRefs := fun _ => ""
    log := [] }

/-- Modulus of `uint64` truncation. -/
def UINT64_MOD : Nat := 2 ^ 64

/-- `function issue(bytes32 docHash) external onlyRole(ISSUER_ROLE)`:
requires the record unissued, stores
`Record(uint64(block.timestamp), false, msg.sender)` and emits
`Issued(docHash, msg.sender, uint64(block.timestamp))`. -/
def issue (s : State) (caller : Address) (ts : Nat) (docHash : Hash) :
    Except Err State :=
  if !(hasRole s ISSUER_ROLE caller) then .error .Unauthorized
  else if !((s.records docHash).issuedAt == 0) then .error .AlreadyIssued
  else .ok { s with
    records := fun h =>
      if h == docHash then ⟨ts % UINT64_MOD, false, caller⟩ else s.records h
    log := s.log ++ [⟨.Issued, docHash, caller, ts % UINT64_MOD, s.log.length⟩] }

/-- `function revoke(bytes32 docHash) external onlyRole(ISSUER_ROLE)`:
requires the record issued, sets only `records[docHash].revoked = true` and
emits `Revoked(docHash, msg.sender, uint64(block.timestamp))`. -/
def revoke (s : State) (caller : Address) (ts : Nat) (docHash : Hash) :
    Except Err State :=
  if !(hasRole s ISSUER_ROLE caller) then .error .Unauthorized
  else if !((s.records docHash).issuedAt != 0) then .error .NotIssued
  else .ok { s with
    records := fun h =>
      if h == docHash then { s.records h with revoked := true } else s.records h
    log := s.log ++ [⟨.Revoked, docHash, caller, ts % UINT64_MOD, s.log.length⟩] }

/-- `function addIssuer(address account) external onlyRole(DEFAULT_ADMIN_ROLE)`. -/
def addIssuer (s : State) (caller account : Address) : Except Err State :=
  if !(hasRole s DEFAULT_ADMIN_ROLE caller) then .error .Unauthorized
  else .ok { s with roles := grantRoleInternal s.roles ISSUER_ROLE account }

/-- `function removeIssuer(address account) external onlyRole(DEFAULT_ADMIN_ROLE)`. -/
def removeIssuer (s : State) (caller account : Address) : Except Err State :=
  if !(hasRole s DEFAULT_ADMIN_ROLE caller) then .error .Unauthorized
  else .ok { s with roles := revokeRoleInternal s.roles ISSUER_ROLE account }

/-- Result of `verify`, one field per named return value of the Solidity
function, in declaration order. -/
structure VerifyResult where
  issued : Bool
  revoked : Bool
  issuedAt : Nat
  issuer : Address
deriving DecidableEq, Repr

/-- `function verify(bytes32 docHash) external view`: a pure read of
`records[docHash]` with `issued = r.issuedAt != 0`. -/
def verify (s : State) (docHash : Hash) : VerifyResult :=
  let r := s.records docHash
  ⟨r.issuedAt != 0, r.revoked, r.issuedAt, r.issuer⟩

/-- A Solidity ABI value, used to talk about the shape of a function's return
tuple. -/
inductive SolValue where
  | boolV (b : Bool)
  | uint64V (n : Nat)
  | addressV (a : Address)
  | stringV (x : String)
deriving DecidableEq, Repr

/-- The tuple of ABI values returned by `verify`, in declaration order,
transcribed from the source's return signature and assignments:
`(bool issued, bool revoked, uint64 issuedAt, address issuer)`. -/
def verifyReturnValues (s : State) (docHash : Hash) : List SolValue :=
  let r := s.records docHash
  [.boolV (r.issuedAt != 0), .boolV r.revoked, .uint64V r.issuedAt, .addressV r.issuer]

/-- One external call to the contract, with its caller and block timestamp. -/
inductive Op where
  | issue (caller : Address) (ts : Nat) (docHash : Hash)
  | revoke (caller : Address) (ts : Nat) (docHash : Hash)
  | addIssuer (caller account : Address)
  | removeIssuer (caller account : Address)
deriving DecidableEq, Repr

/-- Dispatch one call. -/
def step (s : State) : Op → Except Err State
  | .issue caller ts docHash => issue s caller ts docHash
  | .revoke caller ts docHash => revoke s caller ts docHash
  | .addIssuer caller account => addIssuer s caller account
  | .removeIssuer caller account => removeIssuer s caller account

/-- Execute one call with revert semantics: a failed call leaves the state
unchanged. -/
def exec (s : State) (op : Op) : State :=
  match step s op with
  | .ok s' => s'
  | .error _ => s

/-- Execute a sequence of calls. -/
def run (s : State) (ops : List Op) : State :=
  ops.foldl exec s

/-- The error produced by a call, if any. -/
def errOf : Except Err State → Option Err
  | .error e => some e
  | .ok _ => none

/-- Whether a call succeeded. -/
def stepOk (s : State) (op : Op) : Bool :=
  match step s op with
  | .ok _ => true
  | .error _ => false

/-- Whether a call is a credential-store mutation (`issue`/`revoke`), the
transitions the specification's EventLog records (its event kinds are exactly
`Issued` and `Revoked`). -/
def isCredMutation : Op → Bool
  | .issue _ _ _ => true
  | .revoke _ _ _ => true
  | _ => false

/-- Number of successful credential-store mutations along a run. -/
def countMutSuccess : State → List Op → Nat
  | _, [] => 0
  | s, op :: rest =>
      (if isCredMutation op && stepOk s op then 1 else 0) + countMutSuccess (exec s op) rest

/-! ## Signature-authorized issuance (EIP-712 path)

The src contract does not contain `issueWithSignature`; only the repository's
README ("Recovers the signer address from the EIP-712 signature and stores the
document hash + IPFS CID") and the frontend caller
(`App.jsx`, `issueWithSignature`) reference it.  The definitions below model it
from the spec. -/

/-- The typed payload signed off-chain.  Field list and order from the
spec ("`docHash`, `studentName`, `course`, `issueDate`, `storageRef`") and the
frontend's `types.Credential`; the frontend names the content address `ipfsCid`,
the spec `storageRef`. -/
structure CredentialPayload where
  docHash : Hash
  studentName : String
  course : String
  issueDate : Nat
  storageRef : String
deriving DecidableEq, Repr

/-- EIP-712 domain `{name, version, chainId, verifyingContract}`. -/
structure Domain where
  name : String
  version : String
  chainId : Nat
  verifyingContract : Address
deriving DecidableEq, Repr

/-- Modelled from the spec: the typed-data digest.  The spec requires the
digest to be byte-exact, reproducible, and to change under any one-bit change
to any field (collision resistance inherited from the hash function).  The
cryptographic hash is idealized as injective, so the digest is modelled as the
pair of the domain and the payload themselves. -/
structure Digest where
  domain : Domain
  payload : CredentialPayload
deriving DecidableEq, Repr

/-- Modelled from the spec: the two-stage typed-data hashing scheme (domain
separator, struct hash, fixed prefix), idealized as the injective pairing. -/
def typedDataDigest (d : Domain) (p : CredentialPayload) : Digest := ⟨d, p⟩

/-- An ECDSA signature, idealized: it remembers the digest it was produced
over and the key holder who produced it. -/
structure Signature where
  signedDigest : Digest
  signer : Address
deriving DecidableEq, Repr

/-- Off-chain signing of a typed-data digest (the frontend's
`signer.signTypedData`). -/
def signTypedData (signer : Address) (d : Digest) : Signature := ⟨d, signer⟩

/-- Modelled from the spec: elliptic-curve signature recovery.  Recovery on the
digest the signature was produced over yields the signer; recovery on any other
digest yields an address the signer never controlled, modelled here as
`signer + 1` (the theorems about mismatched digests only assume that this
recovered address does not hold `ISSUER_ROLE`, the cryptographically
overwhelming case). -/
def ecrecover (d : Digest) (sig : Signature) : Address :=
  if sig.signedDigest = d then sig.signer else sig.signer + 1

/-- The EIP-712 domain the registry verifies against; `name` and `version`
from the frontend caller (`name: "CredentialRegistry", version: "1"`). -/
def contractDomain (chainId : Nat) (registry : Address) : Domain :=
  ⟨"CredentialRegistry", "1", chainId, registry⟩

/-- Modelled from the spec: `issueWithSignature(payload, signature)`, absent
from the src contract.  Per spec §4.2/§4.4: recover the signer from the
typed-data digest of the payload under the contract's domain; the recovered
identity must hold `ISSUER_ROLE`, else `Unauthorized`; the payload's `docHash`
must be unissued, else `AlreadyIssued`; on success store the record with
`issuer = recovered`, bind `storageRef = payload.storageRef`, and append an
`Issued` event. -/
def issueWithSignature (s : State) (chainId : Nat) (registry : Address)
    (ts : Nat) (payload : CredentialPayload) (sig : Signature) :
    Except Err State :=
  let digest := typedDataDigest (contractDomain chainId registry) payload
  let recovered := ecrecover digest sig
  if !(hasRole s ISSUER_ROLE recovered) then .error .Unauthorized
  else if !((s.records payload.docHash).issuedAt == 0) then .error .AlreadyIssued
  else .ok { s with
    records := fun h =>
      if h == payload.docHash then ⟨ts % UINT64_MOD, false, recovered⟩
      else s.records h
    storageRefs := fun h =>
      if h == payload.docHash then payload.storageRef else s.storageRefs h
    log := s.log ++
      [⟨.Issued, payload.docHash, recovered, ts % UINT64_MOD, s.log.length⟩] }

/-- `Q` is obtained from `P` by mutating exactly one of the five payload
fields. -/
def OneFieldMutation (P Q : CredentialPayload) : Prop :=
  (P.docHash ≠ Q.docHash ∧ P.studentName = Q.studentName ∧ P.course = Q.course
      ∧ P.issueDate = Q.issueDate ∧ P.storageRef = Q.storageRef)
  ∨ (P.docHash = Q.docHash ∧ P.studentName ≠ Q.studentName ∧ P.course = Q.course
      ∧ P.issueDate = Q.issueDate ∧ P.storageRef = Q.storageRef)
  ∨ (P.docHash = Q.docHash ∧ P.studentName = Q.studentName ∧ P.course ≠ Q.course
      ∧ P.issueDate = Q.issueDate ∧ P.storageRef = Q.storageRef)
  ∨ (P.docHash = Q.docHash ∧ P.studentName = Q.studentName ∧ P.course = Q.course
      ∧ P.issueDate ≠ Q.issueDate ∧ P.storageRef = Q.storageRef)
  ∨ (P.docHash = Q.docHash ∧ P.studentName = Q.studentName ∧ P.course = Q.course
      ∧ P.issueDate = Q.issueDate ∧ P.storageRef ≠ Q.storageRef)

/-- The credential-record invariant of the specification: an unissued record
is never revoked. -/
def RecordsInv (s : State) : Prop :=
  ∀ h : Hash, (s.records h).issuedAt = 0 → (s.records h).revoked = false

/-- Demo state: the contract deployed with admin (and issuer) address `1`,
after a successful `issue(5)` by `1` at time `10`. -/
def sIssued : State := exec (initialState 1) (.issue 1 10 5)

/-- Demo state: `sIssued` after a successful `revoke(5)` by `1` at time `11`. -/
def sRevoked : State := exec sIssued (.revoke 1 11 5)

/-- Demo payload for the signature path. -/
def demoPayload : CredentialPayload := ⟨5, "Alice", "Math", 200, "QmX"⟩

/-- `demoPayload` with a single field (the course) mutated. -/
def demoMutPayload : CredentialPayload := ⟨5, "Alice", "Physics", 200, "QmX"⟩

/-- Demo EIP-712 domain: Sepolia chain id, registry at address `7`. -/
def demoDomain : Domain := contractDomain 11155111 7

/-- Demo signature: address `1` signs the digest of `demoPayload` under
`demoDomain`. -/
def demoSig : Signature := signTypedData 1 (typedDataDigest demoDomain demoPayload)

/-! ## Basic lemmas about the operations -/

/-- A successful `issue` implies its two guards: the caller held `ISSUER_ROLE`
and the record was unissued. -/
theorem issue_ok_conditions (s : State) (caller : Address) (ts : Nat) (h : Hash)
    (hok : stepOk s (.issue caller ts h) = true) :
    hasRole s ISSUER_ROLE caller = true ∧ (s.records h).issuedAt = 0 := by
  unfold stepOk step issue at hok
  by_cases h1 : hasRole s ISSUER_ROLE caller
  · by_cases h2 : (s.records h).issuedAt = 0
    · exact ⟨h1, h2⟩
    · simp [h1, h2] at hok
  · simp [h1] at hok

/-- A successful `revoke` implies its two guards: the caller held `ISSUER_ROLE`
and the record was issued. -/
theorem revoke_ok_conditions (s : State) (caller : Address) (ts : Nat) (h : Hash)
    (hok : stepOk s (.revoke caller ts h) = true) :
    hasRole s ISSUER_ROLE caller = true ∧ (s.records h).issuedAt ≠ 0 := by
  unfold stepOk step revoke at hok
  by_cases h1 : hasRole s ISSUER_ROLE caller
  · by_cases h2 : (s.records h).issuedAt = 0
    · simp [h1, h2] at hok
    · exact ⟨h1, h2⟩
  · simp [h1] at hok

/-- Effect of a successful `issue` on the state. -/
theorem exec_issue_eq (s : State) (caller : Address) (ts : Nat) (h : Hash)
    (h1 : hasRole s ISSUER_ROLE caller = true) (h2 : (s.records h).issuedAt = 0) :
    exec s (.issue caller ts h) = { s with
      records := fun h' =>
        if h' == h then ⟨ts % UINT64_MOD, false, caller⟩ else s.records h'
      log := s.log ++ [⟨.Issued, h, caller, ts % UINT64_MOD, s.log.length⟩] } := by
  unfold exec step issue
  simp [h1, h2]

/-- Effect of a successful `revoke` on the state. -/
theorem exec_revoke_eq (s : State) (caller : Address) (ts : Nat) (h : Hash)
    (h1 : hasRole s ISSUER_ROLE caller = true) (h2 : (s.records h).issuedAt ≠ 0) :
    exec s (.revoke caller ts h) = { s with
      records := fun h' =>
        if h' == h then { s.records h' with revoked := true } else s.records h'
      log := s.log ++ [⟨.Revoked, h, caller, ts % UINT64_MOD, s.log.length⟩] } := by
  unfold exec step revoke
  simp [h1, h2]

/-- `issue` succeeds when its guards hold. -/
theorem issue_ok_of_conditions (s : State) (caller : Address) (ts : Nat) (h : Hash)
    (h1 : hasRole s ISSUER_ROLE caller = true) (h2 : (s.records h).issuedAt = 0) :
    stepOk s (.issue caller ts h) = true := by
  unfold stepOk step issue
  simp [h1, h2]

/-- `revoke` succeeds when its guards hold. -/
theorem revoke_ok_of_conditions (s : State) (caller : Address) (ts : Nat) (h : Hash)
    (h1 : hasRole s ISSUER_ROLE caller = true) (h2 : (s.records h).issuedAt ≠ 0) :
    stepOk s (.revoke caller ts h) = true := by
  unfold stepOk step revoke
  simp [h1, h2]

/-- Setting `revoked := true` on an already-revoked record is the identity. -/
theorem record_set_revoked_self (r : Record) (hrev : r.revoked = true) :
    ({ r with revoked := true } : Record) = r := by
  rw [← hrev]

/-- A failed call leaves the state unchanged (revert semantics). -/
theorem exec_eq_of_not_ok (s : State) (op : Op) (hf : stepOk s op = false) :
    exec s op = s := by
  unfold stepOk at hf
  unfold exec
  cases hstep : step s op <;> simp [hstep] at hf ⊢

/-- `issue` by a caller without `ISSUER_ROLE` reverts with `Unauthorized`. -/
theorem issue_not_role (s : State) (caller : Address) (ts : Nat) (h : Hash)
    (hr : hasRole s ISSUER_ROLE caller = false) :
    issue s caller ts h = .error .Unauthorized := by
  simp [issue, hr]

/-- `revoke` by a caller without `ISSUER_ROLE` reverts with `Unauthorized`. -/
theorem revoke_not_role (s : State) (caller : Address) (ts : Nat) (h : Hash)
    (hr : hasRole s ISSUER_ROLE caller = false) :
    revoke s caller ts h = .error .Unauthorized := by
  simp [revoke, hr]

/-- `issue` on an already-issued hash reverts with `AlreadyIssued`. -/
theorem issue_already_issued (s : State) (caller : Address) (ts : Nat) (h : Hash)
    (hr : hasRole s ISSUER_ROLE caller = true) (hi : (s.records h).issuedAt ≠ 0) :
    issue s caller ts h = .error .AlreadyIssued := by
  simp [issue, hr, hi]

/-- `revoke` on an unissued hash reverts with `NotIssued`. -/
theorem revoke_not_issued (s : State) (caller : Address) (ts : Nat) (h : Hash)
    (hr : hasRole s ISSUER_ROLE caller = true) (hi : (s.records h).issuedAt = 0) :
    revoke s caller ts h = .error .NotIssued := by
  simp [revoke, hr, hi]

/-- Effect of a successful `addIssuer`. -/
theorem exec_addIssuer_eq (s : State) (caller account : Address)
    (ha : hasRole s DEFAULT_ADMIN_ROLE caller = true) :
    exec s (.addIssuer caller account)
      = { s with roles := grantRoleInternal s.roles ISSUER_ROLE account } := by
  unfold exec step addIssuer
  simp [ha]

/-- Effect of a successful `removeIssuer`. -/
theorem exec_removeIssuer_eq (s : State) (caller account : Address)
    (ha : hasRole s DEFAULT_ADMIN_ROLE caller = true) :
    exec s (.removeIssuer caller account)
      = { s with roles := revokeRoleInternal s.roles ISSUER_ROLE account } := by
  unfold exec step removeIssuer
  simp [ha]

/-- After `_revokeRole(role, a)` the identity `a` no longer holds `role`. -/
theorem revokeRoleInternal_self (roles : Nat → Address → Bool) (role : Nat)
    (a : Address) : revokeRoleInternal roles role a role a = false := by
  simp [revokeRoleInternal]

/-- A reverting call leaves the state unchanged. -/
theorem exec_eq_of_error (s : State) (op : Op) (e : Err)
    (he : step s op = .error e) : exec s op = s := by
  unfold exec
  simp [he]

/-! ## Lemmas about call sequences -/

/-- Unfolding `run` over the first call. -/
theorem run_cons (s : State) (op : Op) (ops : List Op) :
    run s (op :: ops) = run (exec s op) ops := rfl

/-- Running a concatenation of call sequences. -/
theorem run_append (s : State) (ops ops' : List Op) :
    run s (ops ++ ops') = run (run s ops) ops' := by
  simp [run, List.foldl_append]

/-- `addIssuer` never touches credential records or the event log. -/
theorem exec_addIssuer_records (s : State) (c a : Address) :
    (exec s (.addIssuer c a)).records = s.records
    ∧ (exec s (.addIssuer c a)).log = s.log := by
  rcases Bool.eq_false_or_eq_true (hasRole s DEFAULT_ADMIN_ROLE c) with ha | ha
  · rw [exec_addIssuer_eq s c a ha]
    exact ⟨rfl, rfl⟩
  · rw [exec_eq_of_error s _ .Unauthorized (by simp [step, addIssuer, ha])]
    exact ⟨rfl, rfl⟩

/-- `removeIssuer` never touches credential records or the event log. -/
theorem exec_removeIssuer_records (s : State) (c a : Address) :
    (exec s (.removeIssuer c a)).records = s.records
    ∧ (exec s (.removeIssuer c a)).log = s.log := by
  rcases Bool.eq_false_or_eq_true (hasRole s DEFAULT_ADMIN_ROLE c) with ha | ha
  · rw [exec_removeIssuer_eq s c a ha]
    exact ⟨rfl, rfl⟩
  · rw [exec_eq_of_error s _ .Unauthorized (by simp [step, removeIssuer, ha])]
    exact ⟨rfl, rfl⟩

/-- A call that is not a successful credential mutation leaves the log
unchanged. -/
theorem exec_log_unchanged (s : State) (op : Op)
    (hf : (isCredMutation op && stepOk s op) = false) :
    (exec s op).log = s.log := by
  cases op with
  | issue c t h =>
      simp [isCredMutation] at hf
      rw [exec_eq_of_not_ok s _ hf]
  | revoke c t h =>
      simp [isCredMutation] at hf
      rw [exec_eq_of_not_ok s _ hf]
  | addIssuer c a => exact (exec_addIssuer_records s c a).2
  | removeIssuer c a => exact (exec_removeIssuer_records s c a).2

/-- A successful credential mutation appends exactly one event, carrying the
next sequence number. -/
theorem exec_log_append (s : State) (op : Op)
    (ht : (isCredMutation op && stepOk s op) = true) :
    ∃ e : Event, (exec s op).log = s.log ++ [e] ∧ e.seq = s.log.length := by
  rcases Bool.and_eq_true_iff.mp ht with ⟨hm, hok⟩
  cases op with
  | issue c t h =>
      obtain ⟨h1, h2⟩ := issue_ok_conditions s c t h hok
      rw [exec_issue_eq s c t h h1 h2]
      exact ⟨_, rfl, rfl⟩
  | revoke c t h =>
      obtain ⟨h1, h2⟩ := revoke_ok_conditions s c t h hok
      rw [exec_revoke_eq s c t h h1 h2]
      exact ⟨_, rfl, rfl⟩
  | addIssuer c a => simp [isCredMutation] at hm
  | removeIssuer c a => simp [isCredMutation] at hm

/-- Unfolding `countMutSuccess` over the first call. -/
theorem countMutSuccess_cons (s : State) (op : Op) (rest : List Op) :
    countMutSuccess s (op :: rest)
      = (if isCredMutation op && stepOk s op then 1 else 0)
          + countMutSuccess (exec s op) rest := rfl

/-- The log grows by exactly the number of successful credential mutations. -/
theorem run_log_length (ops : List Op) :
    ∀ s : State, (run s ops).log.length = s.log.length + countMutSuccess s ops := by
  induction ops with
  | nil => intro s; simp [run, countMutSuccess]
  | cons op rest ih =>
      intro s
      rw [run_cons, ih (exec s op), countMutSuccess_cons]
      by_cases hm : (isCredMutation op && stepOk s op) = true
      · obtain ⟨e, he, _⟩ := exec_log_append s op hm
        rw [he]
        simp [hm]
        omega
      · rw [exec_log_unchanged s op (by simpa using hm)]
        simp [hm]

/-- Sequence numbers of the log entries are exactly the positions `0, 1, …`. -/
theorem run_log_map_seq (ops : List Op) :
    ∀ s : State, s.log.map Event.seq = List.range s.log.length →
    (run s ops).log.map Event.seq = List.range (run s ops).log.length := by
  induction ops with
  | nil => intro s hs; exact hs
  | cons op rest ih =>
      intro s hs
      rw [run_cons]
      apply ih
      by_cases hm : (isCredMutation op && stepOk s op) = true
      · obtain ⟨e, he, hseq⟩ := exec_log_append s op hm
        rw [he]
        simp [hseq, hs, List.range_succ]
      · rw [exec_log_unchanged s op (by simpa using hm)]
        exact hs

/-- The log is append-only: running more calls only extends it. -/
theorem run_log_extends (ops : List Op) :
    ∀ s : State, ∃ tail : List Event, (run s ops).log = s.log ++ tail := by
  induction ops with
  | nil => intro s; exact ⟨[], by simp [run]⟩
  | cons op rest ih =>
      intro s
      rw [run_cons]
      obtain ⟨tail, ht⟩ := ih (exec s op)
      by_cases hm : (isCredMutation op && stepOk s op) = true
      · obtain ⟨e, he, _⟩ := exec_log_append s op hm
        rw [he] at ht
        exact ⟨e :: tail, by rw [ht]; simp⟩
      · rw [exec_log_unchanged s op (by simpa using hm)] at ht
        exact ⟨tail, ht⟩

/-! ## Lemmas about the record invariant -/

/-- The invariant holds at deployment. -/
theorem recordsInv_initial (admin : Address) : RecordsInv (initialState admin) := by
  intro h _
  rfl

/-- No call changes a nonzero `issuedAt`. -/
theorem issuedAt_immutable (s : State) (op : Op) (h : Hash)
    (hi : (s.records h).issuedAt ≠ 0) :
    ((exec s op).records h).issuedAt = (s.records h).issuedAt := by
  by_cases hok : stepOk s op = true
  · cases op with
    | issue c t h' =>
        obtain ⟨h1, h2⟩ := issue_ok_conditions s c t h' hok
        rw [exec_issue_eq s c t h' h1 h2]
        by_cases he : h = h'
        · subst he; exact absurd h2 hi
        · simp [he]
    | revoke c t h' =>
        obtain ⟨h1, h2⟩ := revoke_ok_conditions s c t h' hok
        rw [exec_revoke_eq s c t h' h1 h2]
        by_cases he : h = h' <;> simp [he]
    | addIssuer c a => rw [(exec_addIssuer_records s c a).1]
    | removeIssuer c a => rw [(exec_removeIssuer_records s c a).1]
  · rw [exec_eq_of_not_ok s op (by simpa using hok)]

/-- In a state satisfying the invariant, no call takes `revoked` back from
`true` to `false`. -/
theorem revoked_monotone (s : State) (op : Op) (h : Hash)
    (hinv : RecordsInv s) (hrev : (s.records h).revoked = true) :
    ((exec s op).records h).revoked = true := by
  by_cases hok : stepOk s op = true
  · cases op with
    | issue c t h' =>
        obtain ⟨h1, h2⟩ := issue_ok_conditions s c t h' hok
        rw [exec_issue_eq s c t h' h1 h2]
        by_cases he : h = h'
        · subst he
          rw [hinv h h2] at hrev
          cases hrev
        · simp [he]
          exact hrev
    | revoke c t h' =>
        obtain ⟨h1, h2⟩ := revoke_ok_conditions s c t h' hok
        rw [exec_revoke_eq s c t h' h1 h2]
        by_cases he : h = h'
        · subst he; simp
        · simp [he]
          exact hrev
    | addIssuer c a => rw [(exec_addIssuer_records s c a).1]; exact hrev
    | removeIssuer c a => rw [(exec_removeIssuer_records s c a).1]; exact hrev
  · rw [exec_eq_of_not_ok s op (by simpa using hok)]
    exact hrev

/-- The invariant is preserved by every call. -/
theorem recordsInv_exec (s : State) (op : Op) (hs : RecordsInv s) :
    RecordsInv (exec s op) := by
  by_cases hok : stepOk s op = true
  · cases op with
    | issue c t h' =>
        obtain ⟨h1, h2⟩ := issue_ok_conditions s c t h' hok
        rw [exec_issue_eq s c t h' h1 h2]
        intro h hh
        by_cases he : h = h'
        · subst he; simp
        · simp [he] at hh ⊢
          exact hs h hh
    | revoke c t h' =>
        obtain ⟨h1, h2⟩ := revoke_ok_conditions s c t h' hok
        rw [exec_revoke_eq s c t h' h1 h2]
        intro h hh
        by_cases he : h = h'
        · subst he
          simp at hh
          exact absurd hh h2
        · simp [he] at hh ⊢
          exact hs h hh
    | addIssuer c a =>
        intro h
        rw [(exec_addIssuer_records s c a).1]
        exact hs h
    | removeIssuer c a =>
        intro h
        rw [(exec_removeIssuer_records s c a).1]
        exact hs h
  · rw [exec_eq_of_not_ok s op (by simpa using hok)]
    exact hs

/-- The invariant holds in every reachable state. -/
theorem recordsInv_run (ops : List Op) :
    ∀ s : State, RecordsInv s → RecordsInv (run s ops) := by
  induction ops with
  | nil => intro s hs; exact hs
  | cons op rest ih =>
      intro s hs
      rw [run_cons]
      exact ih (exec s op) (recordsInv_exec s op hs)

/-- If `h`'s record being default is implied by the absence of an `Issued`
event for `h`, the same implication holds after any call. -/
theorem records_default_step (s : State) (op : Op) (h : Hash)
    (hs : (∀ e ∈ s.log, e.kind = .Issued → e.docHash ≠ h) →
      s.records h = Record.initial) :
    (∀ e ∈ (exec s op).log, e.kind = .Issued → e.docHash ≠ h) →
      (exec s op).records h = Record.initial := by
  by_cases hok : stepOk s op = true
  · cases op with
    | issue c t h' =>
        obtain ⟨h1, h2⟩ := issue_ok_conditions s c t h' hok
        rw [exec_issue_eq s c t h' h1 h2]
        intro hno
        have hne : h' ≠ h := by
          refine hno ⟨.Issued, h', c, t % UINT64_MOD, s.log.length⟩ ?_ rfl
          simp
        have hnos : ∀ e ∈ s.log, e.kind = .Issued → e.docHash ≠ h := by
          intro e he hk
          exact hno e (by simp [he]) hk
        have := hs hnos
        simp [hne, Ne.symm hne]
        exact this
    | revoke c t h' =>
        obtain ⟨h1, h2⟩ := revoke_ok_conditions s c t h' hok
        rw [exec_revoke_eq s c t h' h1 h2]
        intro hno
        have hnos : ∀ e ∈ s.log, e.kind = .Issued → e.docHash ≠ h := by
          intro e he hk
          exact hno e (by simp [he]) hk
        have hd := hs hnos
        by_cases he : h = h'
        · subst he
          rw [hd] at h2
          exact absurd rfl h2
        · simp [he]
          exact hd
    | addIssuer c a =>
        rw [(exec_addIssuer_records s c a).1, (exec_addIssuer_records s c a).2]
        exact hs
    | removeIssuer c a =>
        rw [(exec_removeIssuer_records s c a).1, (exec_removeIssuer_records s c a).2]
        exact hs
  · rw [exec_eq_of_not_ok s op (by simpa using hok)]
    exact hs

/-- A hash with no `Issued` event in the log of a reachable state still has
the default record. -/
theorem records_default_run (ops : List Op) (h : Hash) :
    ∀ s : State,
    ((∀ e ∈ s.log, e.kind = .Issued → e.docHash ≠ h) → s.records h = Record.initial) →
    (∀ e ∈ (run s ops).log, e.kind = .Issued → e.docHash ≠ h) →
      (run s ops).records h = Record.initial := by
  induction ops with
  | nil => intro s hs; exact hs
  | cons op rest ih =>
      intro s hs
      rw [run_cons]
      exact ih (exec s op) (records_default_step s op h hs)

/-! ## Lemmas about the signature path -/

/-- A payload mutated in one field differs from the original. -/
theorem OneFieldMutation.ne {P Q : CredentialPayload}
    (hm : OneFieldMutation P Q) : P ≠ Q := by
  rintro rfl
  rcases hm with ⟨h, _⟩ | ⟨_, h, _⟩ | ⟨_, _, h, _⟩ | ⟨_, _, _, h, _⟩ | ⟨_, _, _, _, h⟩ <;>
    exact h rfl

/-- Recovery on the signed digest yields the signer. -/
theorem ecrecover_correct (A : Address) (d : Digest) :
    ecrecover d (signTypedData A d) = A := by
  simp [ecrecover, signTypedData]

/-- Recovery on any other digest yields the modelled mismatch address. -/
theorem ecrecover_mismatch (A : Address) (d d' : Digest) (hne : d ≠ d') :
    ecrecover d' (signTypedData A d) = A + 1 := by
  simp [ecrecover, signTypedData, hne]

/-- Effect of a successful signature-authorized issuance. -/
theorem issueWithSignature_eq (s : State) (chainId : Nat) (registry : Address)
    (ts : Nat) (P : CredentialPayload) (A : Address)
    (hrole : hasRole s ISSUER_ROLE A = true)
    (hun : (s.records P.docHash).issuedAt = 0) :
    issueWithSignature s chainId registry ts P
        (signTypedData A (typedDataDigest (contractDomain chainId registry) P))
      = .ok { s with
          records := fun h =>
            if h == P.docHash then ⟨ts % UINT64_MOD, false, A⟩ else s.records h
          storageRefs := fun h =>
            if h == P.docHash then P.storageRef else s.storageRefs h
          log := s.log ++
            [⟨.Issued, P.docHash, A, ts % UINT64_MOD, s.log.length⟩] } := by
  simp only [issueWithSignature]
  rw [ecrecover_correct A (typedDataDigest (contractDomain chainId registry) P)]
  simp [hrole, hun]

/-! ## The claims -/

/-- Claim C1: for every payload `P` and a signature produced over the
typed-data digest of `P` under the correct domain by an identity `A` holding
`ISSUER_ROLE` (with `P.docHash` not yet issued), `issueWithSignature(P, sig)`
succeeds and records `issuer` = the recovered signer (= `A`); and for every
payload obtained by mutating any single field of `P` after signing, recovery
mismatches (it yields an address other than `A`), so — that address not
holding `ISSUER_ROLE` — resubmitting fails with `Unauthorized`. -/
theorem issueWithSignature_auth (s : State) (chainId : Nat) (registry : Address)
    (ts : Nat) (P : CredentialPayload) (A : Address)
    (hrole : hasRole s ISSUER_ROLE A = true)
    (hun : (s.records P.docHash).issuedAt = 0) :
    (∃ s', issueWithSignature s chainId registry ts P
        (signTypedData A (typedDataDigest (contractDomain chainId registry) P))
          = .ok s'
      ∧ (s'.records P.docHash).issuer
          = ecrecover (typedDataDigest (contractDomain chainId registry) P)
              (signTypedData A (typedDataDigest (contractDomain chainId registry) P))
      ∧ (s'.records P.docHash).issuer = A
      ∧ (s'.records P.docHash).issuedAt = ts % UINT64_MOD
      ∧ s'.storageRefs P.docHash = P.storageRef)
    ∧ (∀ Q : CredentialPayload, OneFieldMutation P Q →
        ecrecover (typedDataDigest (contractDomain chainId registry) Q)
            (signTypedData A (typedDataDigest (contractDomain chainId registry) P)) ≠ A
        ∧ (hasRole s ISSUER_ROLE
              (ecrecover (typedDataDigest (contractDomain chainId registry) Q)
                (signTypedData A (typedDataDigest (contractDomain chainId registry) P)))
            = false →
          issueWithSignature s chainId registry ts Q
              (signTypedData A (typedDataDigest (contractDomain chainId registry) P))
            = .error .Unauthorized)) := by
  constructor
  · refine ⟨_, issueWithSignature_eq s chainId registry ts P A hrole hun, ?_, ?_, ?_, ?_⟩
    · rw [ecrecover_correct]
      simp
    · simp
    · simp
    · simp
  · intro Q hm
    have hne : typedDataDigest (contractDomain chainId registry) P
        ≠ typedDataDigest (contractDomain chainId registry) Q := by
      intro heq
      injection heq with h1 h2
      exact hm.ne h2
    have hrec := ecrecover_mismatch A _ _ hne
    constructor
    · rw [hrec]
      exact Nat.succ_ne_self A
    · intro hbad
      simp only [issueWithSignature]
      simp [hbad]

/-- Witness for C1: concrete instantiation at the demo payload, signer `1`,
plus a concrete mutated resubmission rejected with `Unauthorized`. -/
theorem issueWithSignature_auth_witness :
    hasRole (initialState 1) ISSUER_ROLE 1 = true
    ∧ ((initialState 1).records demoPayload.docHash).issuedAt = 0
    ∧ ((∃ s', issueWithSignature (initialState 1) 11155111 7 100 demoPayload
          (signTypedData 1 (typedDataDigest (contractDomain 11155111 7) demoPayload))
            = .ok s'
        ∧ (s'.records demoPayload.docHash).issuer
            = ecrecover (typedDataDigest (contractDomain 11155111 7) demoPayload)
                (signTypedData 1 (typedDataDigest (contractDomain 11155111 7) demoPayload))
        ∧ (s'.records demoPayload.docHash).issuer = 1
        ∧ (s'.records demoPayload.docHash).issuedAt = 100 % UINT64_MOD
        ∧ s'.storageRefs demoPayload.docHash = demoPayload.storageRef)
      ∧ (∀ Q : CredentialPayload, OneFieldMutation demoPayload Q →
          ecrecover (typedDataDigest (contractDomain 11155111 7) Q)
              (signTypedData 1 (typedDataDigest (contractDomain 11155111 7) demoPayload)) ≠ 1
          ∧ (hasRole (initialState 1) ISSUER_ROLE
                (ecrecover (typedDataDigest (contractDomain 11155111 7) Q)
                  (signTypedData 1 (typedDataDigest (contractDomain 11155111 7) demoPayload)))
              = false →
            issueWithSignature (initialState 1) 11155111 7 100 Q
                (signTypedData 1 (typedDataDigest (contractDomain 11155111 7) demoPayload))
              = .error .Unauthorized)))
    ∧ OneFieldMutation demoPayload demoMutPayload
    ∧ errOf (issueWithSignature (initialState 1) 11155111 7 100 demoMutPayload
        (signTypedData 1 (typedDataDigest (contractDomain 11155111 7) demoPayload)))
        = some .Unauthorized :=
  ⟨by decide, by decide,
    issueWithSignature_auth (initialState 1) 11155111 7 100 demoPayload 1
      (by decide) (by decide),
    by simp [OneFieldMutation, demoPayload, demoMutPayload],
    by decide⟩

/-- Counterexample to C2 as stated: `verify` returns four values
`(issued, revoked, issuedAt, issuer)`, not a 5-tuple including `storageRef`. -/
theorem verify_five_tuple_cex :
    (verifyReturnValues (initialState 1) 0).length = 4
    ∧ (verifyReturnValues (initialState 1) 0).length ≠ 5 := by
  decide

/-- Claim C2 (amended): `verify` is a total pure read returning the 4-tuple
`(issued, revoked, issuedAt, issuer)`; for a docHash never successfully issued
(no `Issued` event for it in the log of a reachable state) it returns
all-false/zero defaults rather than raising any error. -/
theorem verify_total_defaults (admin : Address) (ops : List Op) (h : Hash)
    (hnone : ∀ e ∈ (run (initialState admin) ops).log,
      e.kind = .Issued → e.docHash ≠ h) :
    verify (run (initialState admin) ops) h = ⟨false, false, 0, 0⟩
    ∧ (verifyReturnValues (run (initialState admin) ops) h).length = 4 := by
  have hd : (run (initialState admin) ops).records h = Record.initial := by
    refine records_default_run ops h (initialState admin) ?_ hnone
    intro _
    rfl
  constructor
  · simp [verify, hd, Record.initial]
  · rfl

/-- Witness for C2 (amended): a run that issued hash `6` only; hash `5` is
unknown and verifies to the defaults. -/
theorem verify_total_defaults_witness :
    (∀ e ∈ (run (initialState 1) [Op.issue 1 10 6]).log,
      e.kind = .Issued → e.docHash ≠ 5)
    ∧ (verify (run (initialState 1) [Op.issue 1 10 6]) 5 = ⟨false, false, 0, 0⟩
      ∧ (verifyReturnValues (run (initialState 1) [Op.issue 1 10 6]) 5).length = 4) :=
  ⟨by decide, verify_total_defaults 1 [Op.issue 1 10 6] 5 (by decide)⟩

/-- Counterexample to C3 as stated: revoking the already-revoked hash `5`
does not fail with `AlreadyRevoked` — it succeeds and appends a third event. -/
theorem double_revoke_cex :
    (sRevoked.records 5).revoked = true
    ∧ errOf (revoke sRevoked 1 12 5) ≠ some .AlreadyRevoked
    ∧ stepOk sRevoked (.revoke 1 12 5) = true
    ∧ (exec sRevoked (.revoke 1 12 5)).log.length = 3 := by
  decide

/-- Claim C3 (amended): `revoke` has no `AlreadyRevoked` guard — calling it on
an already-`Revoked` record succeeds again, leaves every credential record
unchanged (`revoked` stays `true`), and appends another `Revoked` event. -/
theorem double_revoke_succeeds (s : State) (caller : Address) (ts : Nat) (h : Hash)
    (hrole : hasRole s ISSUER_ROLE caller = true)
    (hiss : (s.records h).issuedAt ≠ 0)
    (hrev : (s.records h).revoked = true) :
    stepOk s (.revoke caller ts h) = true
    ∧ (exec s (.revoke caller ts h)).records = s.records
    ∧ (exec s (.revoke caller ts h)).log
        = s.log ++ [⟨.Revoked, h, caller, ts % UINT64_MOD, s.log.length⟩] := by
  refine ⟨revoke_ok_of_conditions s caller ts h hrole hiss, ?_, ?_⟩
  · rw [exec_revoke_eq s caller ts h hrole hiss]
    funext h'
    by_cases hh : h' = h
    · subst hh
      simp [record_set_revoked_self _ hrev]
    · simp [hh]
  · rw [exec_revoke_eq s caller ts h hrole hiss]

/-- Witness for C3 (amended): the second revoke of hash `5` succeeds and
appends another event. -/
theorem double_revoke_succeeds_witness :
    hasRole sRevoked ISSUER_ROLE 1 = true
    ∧ (sRevoked.records 5).issuedAt ≠ 0
    ∧ (sRevoked.records 5).revoked = true
    ∧ (stepOk sRevoked (.revoke 1 12 5) = true
      ∧ (exec sRevoked (.revoke 1 12 5)).records = sRevoked.records
      ∧ (exec sRevoked (.revoke 1 12 5)).log
          = sRevoked.log ++ [⟨.Revoked, 5, 1, 12 % UINT64_MOD, sRevoked.log.length⟩]) :=
  ⟨by decide, by decide, by decide,
    double_revoke_succeeds sRevoked 1 12 5 (by decide) (by decide) (by decide)⟩

/-- Counterexample to C4 as stated: a second `issue` of hash `5` by caller `2`,
who holds no role, fails with `Unauthorized`, not `AlreadyIssued` (the
`onlyRole` modifier runs before the already-issued check). -/
theorem reissue_unauthorized_cex :
    (sIssued.records 5).issuedAt ≠ 0
    ∧ hasRole sIssued ISSUER_ROLE 2 = false
    ∧ errOf (issue sIssued 2 11 5) = some .Unauthorized
    ∧ errOf (issue sIssued 2 11 5) ≠ some .AlreadyIssued := by
  decide

/-- Claim C4 (amended): for a docHash already issued (or revoked), a second
`issue` by a caller holding `ISSUER_ROLE` fails with `AlreadyIssued`, while a
caller without the role fails with `Unauthorized`; in both cases the record is
unchanged and no additional `Issued` event is appended (the state is
untouched). -/
theorem reissue_already_issued (s : State) (caller : Address) (ts : Nat) (h : Hash)
    (hiss : (s.records h).issuedAt ≠ 0) :
    (hasRole s ISSUER_ROLE caller = true →
        errOf (issue s caller ts h) = some .AlreadyIssued)
    ∧ (hasRole s ISSUER_ROLE caller = false →
        errOf (issue s caller ts h) = some .Unauthorized)
    ∧ exec s (.issue caller ts h) = s := by
  refine ⟨?_, ?_, ?_⟩
  · intro hr
    rw [issue_already_issued s caller ts h hr hiss]
    rfl
  · intro hr
    rw [issue_not_role s caller ts h hr]
    rfl
  · rcases Bool.eq_false_or_eq_true (hasRole s ISSUER_ROLE caller) with hr | hr
    · exact exec_eq_of_error s _ .AlreadyIssued (issue_already_issued s caller ts h hr hiss)
    · exact exec_eq_of_error s _ .Unauthorized (issue_not_role s caller ts h hr)

/-- Witness for C4 (amended): re-issue of hash `5` by issuer `1` and by
stranger `2` both leave the state unchanged with the respective errors. -/
theorem reissue_already_issued_witness :
    (sIssued.records 5).issuedAt ≠ 0
    ∧ ((hasRole sIssued ISSUER_ROLE 1 = true →
        errOf (issue sIssued 1 11 5) = some .AlreadyIssued)
      ∧ (hasRole sIssued ISSUER_ROLE 1 = false →
        errOf (issue sIssued 1 11 5) = some .Unauthorized)
      ∧ exec sIssued (.issue 1 11 5) = sIssued) :=
  ⟨by decide, reissue_already_issued sIssued 1 11 5 (by decide)⟩

/-- Claim C5: in every state reachable from deployment by issue / revoke /
grant / revoke-role calls, every record satisfies `issuedAt = 0 → ¬revoked`;
no call changes a nonzero `issuedAt`; and no call takes `revoked` from `true`
back to `false`. -/
theorem lifecycle_invariants (admin : Address) (ops : List Op) (h : Hash) :
    (((run (initialState admin) ops).records h).issuedAt = 0 →
        ((run (initialState admin) ops).records h).revoked = false)
    ∧ (∀ op : Op, ((run (initialState admin) ops).records h).issuedAt ≠ 0 →
        ((exec (run (initialState admin) ops) op).records h).issuedAt
          = ((run (initialState admin) ops).records h).issuedAt)
    ∧ (∀ op : Op, ((run (initialState admin) ops).records h).revoked = true →
        ((exec (run (initialState admin) ops) op).records h).revoked = true) := by
  have hinv : RecordsInv (run (initialState admin) ops) :=
    recordsInv_run ops (initialState admin) (recordsInv_initial admin)
  refine ⟨hinv h, ?_, ?_⟩
  · intro op hi
    exact issuedAt_immutable (run (initialState admin) ops) op h hi
  · intro op hrev
    exact revoked_monotone (run (initialState admin) ops) op h hinv hrev

/-- Witness for C5: the invariants instantiated after the issue-revoke run on
hash `5`. -/
theorem lifecycle_invariants_witness :
    (((run (initialState 1) [Op.issue 1 10 5, Op.revoke 1 11 5]).records 5).issuedAt = 0 →
        ((run (initialState 1) [Op.issue 1 10 5, Op.revoke 1 11 5]).records 5).revoked = false)
    ∧ (∀ op : Op,
        ((run (initialState 1) [Op.issue 1 10 5, Op.revoke 1 11 5]).records 5).issuedAt ≠ 0 →
        ((exec (run (initialState 1) [Op.issue 1 10 5, Op.revoke 1 11 5]) op).records 5).issuedAt
          = ((run (initialState 1) [Op.issue 1 10 5, Op.revoke 1 11 5]).records 5).issuedAt)
    ∧ (∀ op : Op,
        ((run (initialState 1) [Op.issue 1 10 5, Op.revoke 1 11 5]).records 5).revoked = true →
        ((exec (run (initialState 1) [Op.issue 1 10 5, Op.revoke 1 11 5]) op).records 5).revoked
          = true) :=
  lifecycle_invariants 1 [Op.issue 1 10 5, Op.revoke 1 11 5] 5

/-- Counterexample to C6 as stated: at timestamp `2^64` (which is `0 mod 2^64`)
the `issue` of hash `5` succeeds, yet `verify` then reports the credential as
not issued. -/
theorem issue_verify_cex :
    stepOk (initialState 1) (.issue 1 (2 ^ 64) 5) = true
    ∧ (verify (exec (initialState 1) (.issue 1 (2 ^ 64) 5)) 5).issued = false := by
  decide

/-- Claim C6 (amended): for a docHash in the Unissued state and a caller
holding `ISSUER_ROLE`, issuing at a time `ts` with `ts % 2^64 ≠ 0` succeeds,
and `verify` then yields `(true, false, ts % 2^64, caller)` — for every
realistic timestamp (`ts < 2^64`) the reported `issuedAt` is exactly the
issuance time. -/
theorem issue_verify_roundtrip (s : State) (caller : Address) (ts : Nat) (h : Hash)
    (hrole : hasRole s ISSUER_ROLE caller = true)
    (hun : (s.records h).issuedAt = 0)
    (hts : ts % UINT64_MOD ≠ 0) :
    stepOk s (.issue caller ts h) = true
    ∧ verify (exec s (.issue caller ts h)) h
        = ⟨true, false, ts % UINT64_MOD, caller⟩ := by
  refine ⟨issue_ok_of_conditions s caller ts h hrole hun, ?_⟩
  rw [exec_issue_eq s caller ts h hrole hun]
  simp [verify, hts]

/-- Witness for C6 (amended): issuing hash `5` at time `10` and verifying. -/
theorem issue_verify_roundtrip_witness :
    hasRole (initialState 1) ISSUER_ROLE 1 = true
    ∧ ((initialState 1).records 5).issuedAt = 0
    ∧ 10 % UINT64_MOD ≠ 0
    ∧ (stepOk (initialState 1) (.issue 1 10 5) = true
      ∧ verify (exec (initialState 1) (.issue 1 10 5)) 5
          = ⟨true, false, 10 % UINT64_MOD, 1⟩) :=
  ⟨by decide, by decide, by decide,
    issue_verify_roundtrip (initialState 1) 1 10 5 (by decide) (by decide) (by decide)⟩

/-- Claim C7: a successful `revoke(h)` sets only the `revoked` flag of `h`'s
record; `issuedAt` and `issuer` keep their issuance-time values, `verify(h)`
then yields `(true, true, t, issuer)` with the original `t` and `issuer`, and
the records of every other docHash (as well as the role table and storage
references) are unchanged. -/
theorem revoke_frame (s : State) (caller : Address) (ts : Nat) (h : Hash)
    (hok : stepOk s (.revoke caller ts h) = true) :
    ((exec s (.revoke caller ts h)).records h).revoked = true
    ∧ ((exec s (.revoke caller ts h)).records h).issuedAt = (s.records h).issuedAt
    ∧ ((exec s (.revoke caller ts h)).records h).issuer = (s.records h).issuer
    ∧ (∀ h' : Hash, h' ≠ h → (exec s (.revoke caller ts h)).records h' = s.records h')
    ∧ verify (exec s (.revoke caller ts h)) h
        = ⟨true, true, (s.records h).issuedAt, (s.records h).issuer⟩
    ∧ (exec s (.revoke caller ts h)).storageRefs = s.storageRefs
    ∧ (exec s (.revoke caller ts h)).roles = s.roles := by
  obtain ⟨h1, h2⟩ := revoke_ok_conditions s caller ts h hok
  rw [exec_revoke_eq s caller ts h h1 h2]
  refine ⟨by simp, by simp, by simp, ?_, ?_, rfl, rfl⟩
  · intro h' hne
    simp [hne]
  · simp [verify, h2]

/-- Witness for C7: issue hash `5` at time `10`, then revoke it at time `11`;
only the revoked flag changes and hash `7` keeps its default record. -/
theorem revoke_frame_witness :
    stepOk sIssued (.revoke 1 11 5) = true
    ∧ (((exec sIssued (.revoke 1 11 5)).records 5).revoked = true
      ∧ ((exec sIssued (.revoke 1 11 5)).records 5).issuedAt = (sIssued.records 5).issuedAt
      ∧ ((exec sIssued (.revoke 1 11 5)).records 5).issuer = (sIssued.records 5).issuer
      ∧ (∀ h' : Hash, h' ≠ 5 → (exec sIssued (.revoke 1 11 5)).records h' = sIssued.records h')
      ∧ verify (exec sIssued (.revoke 1 11 5)) 5
          = ⟨true, true, (sIssued.records 5).issuedAt, (sIssued.records 5).issuer⟩
      ∧ (exec sIssued (.revoke 1 11 5)).storageRefs = sIssued.storageRefs
      ∧ (exec sIssued (.revoke 1 11 5)).roles = sIssued.roles) :=
  ⟨by decide, revoke_frame sIssued 1 11 5 (by decide)⟩

/-- Claim C8: after an admin removes `ISSUER_ROLE` from `X`, a subsequent
`issue` or `revoke` by `X` fails with `Unauthorized` and changes nothing; and
a `revoke` of an unissued docHash by a caller holding `ISSUER_ROLE` fails with
`NotIssued`, changing nothing. -/
theorem removed_issuer_blocked (s : State) (adminA X : Address)
    (hadmin : hasRole s DEFAULT_ADMIN_ROLE adminA = true) :
    stepOk s (.removeIssuer adminA X) = true
    ∧ (∀ (ts : Nat) (h : Hash),
        issue (exec s (.removeIssuer adminA X)) X ts h = .error .Unauthorized
        ∧ exec (exec s (.removeIssuer adminA X)) (.issue X ts h)
            = exec s (.removeIssuer adminA X))
    ∧ (∀ (ts : Nat) (h : Hash),
        revoke (exec s (.removeIssuer adminA X)) X ts h = .error .Unauthorized
        ∧ exec (exec s (.removeIssuer adminA X)) (.revoke X ts h)
            = exec s (.removeIssuer adminA X))
    ∧ (∀ (t : State) (caller : Address) (ts : Nat) (h : Hash),
        hasRole t ISSUER_ROLE caller = true → (t.records h).issuedAt = 0 →
        revoke t caller ts h = .error .NotIssued
        ∧ exec t (.revoke caller ts h) = t) := by
  have hnorole : hasRole (exec s (.removeIssuer adminA X)) ISSUER_ROLE X = false := by
    rw [exec_removeIssuer_eq s adminA X hadmin]
    exact revokeRoleInternal_self s.roles ISSUER_ROLE X
  refine ⟨by unfold stepOk step removeIssuer; simp [hadmin], ?_, ?_, ?_⟩
  · intro ts h
    have he := issue_not_role _ X ts h hnorole
    exact ⟨he, exec_eq_of_error _ _ _ he⟩
  · intro ts h
    have he := revoke_not_role _ X ts h hnorole
    exact ⟨he, exec_eq_of_error _ _ _ he⟩
  · intro t caller ts h hrole hun
    have he := revoke_not_issued t caller ts h hrole hun
    exact ⟨he, exec_eq_of_error _ _ _ he⟩

/-- Witness for C8: the admin `1` removes its own issuer role; its own issue
and revoke calls are then rejected, and revoking the unissued hash `5` from a
fresh deployment fails with `NotIssued`. -/
theorem removed_issuer_blocked_witness :
    hasRole (initialState 1) DEFAULT_ADMIN_ROLE 1 = true
    ∧ (stepOk (initialState 1) (.removeIssuer 1 1) = true
      ∧ (∀ (ts : Nat) (h : Hash),
          issue (exec (initialState 1) (.removeIssuer 1 1)) 1 ts h = .error .Unauthorized
          ∧ exec (exec (initialState 1) (.removeIssuer 1 1)) (.issue 1 ts h)
              = exec (initialState 1) (.removeIssuer 1 1))
      ∧ (∀ (ts : Nat) (h : Hash),
          revoke (exec (initialState 1) (.removeIssuer 1 1)) 1 ts h = .error .Unauthorized
          ∧ exec (exec (initialState 1) (.removeIssuer 1 1)) (.revoke 1 ts h)
              = exec (initialState 1) (.removeIssuer 1 1))
      ∧ (∀ (t : State) (caller : Address) (ts : Nat) (h : Hash),
          hasRole t ISSUER_ROLE caller = true → (t.records h).issuedAt = 0 →
          revoke t caller ts h = .error .NotIssued
          ∧ exec t (.revoke caller ts h) = t)) :=
  ⟨by decide, removed_issuer_blocked (initialState 1) 1 1 (by decide)⟩

/-- Claim C9: after any call sequence with `N` successful credential-store
mutations (and any number of failed or role-management calls), the event log
contains exactly `N` entries, in application order, with strictly increasing
sequence numbers (`0, 1, …, N-1`); the log is append-only and failed calls
append nothing. -/
theorem event_log_properties (admin : Address) (ops : List Op) :
    (run (initialState admin) ops).log.length
        = countMutSuccess (initialState admin) ops
    ∧ (run (initialState admin) ops).log.map Event.seq
        = List.range (countMutSuccess (initialState admin) ops)
    ∧ List.Pairwise (· < ·) ((run (initialState admin) ops).log.map Event.seq)
    ∧ (∀ ops' : List Op, ∃ tail : List Event,
        (run (initialState admin) (ops ++ ops')).log
          = (run (initialState admin) ops).log ++ tail)
    ∧ (∀ (t : State) (op : Op), stepOk t op = false → (exec t op).log = t.log) := by
  have hlen : (run (initialState admin) ops).log.length
      = countMutSuccess (initialState admin) ops := by
    rw [run_log_length ops (initialState admin)]
    simp [initialState]
  have hmap : (run (initialState admin) ops).log.map Event.seq
      = List.range (run (initialState admin) ops).log.length :=
    run_log_map_seq ops (initialState admin) rfl
  refine ⟨hlen, by rw [hmap, hlen], ?_, ?_, ?_⟩
  · rw [hmap]
    exact List.pairwise_lt_range _
  · intro ops'
    rw [run_append]
    exact run_log_extends ops' (run (initialState admin) ops)
  · intro t op hf
    rw [exec_eq_of_not_ok t op hf]

/-- Witness for C9: a three-call run whose middle call (a re-issue) fails
leaves exactly two log entries. -/
theorem event_log_properties_witness :
    (run (initialState 1) [Op.issue 1 10 5, Op.issue 1 11 5, Op.revoke 1 12 5]).log.length
      = countMutSuccess (initialState 1) [Op.issue 1 10 5, Op.issue 1 11 5, Op.revoke 1 12 5]
    ∧ countMutSuccess (initialState 1) [Op.issue 1 10 5, Op.issue 1 11 5, Op.revoke 1 12 5] = 2
    ∧ (run (initialState 1) [Op.issue 1 10 5, Op.issue 1 11 5, Op.revoke 1 12 5]).log.map
        Event.seq = [0, 1] :=
  ⟨(event_log_properties 1 [Op.issue 1 10 5, Op.issue 1 11 5, Op.revoke 1 12 5]).1,
    by decide, by decide⟩

/-- Claim C10: `issue` stores `issuedAt` as the timestamp reduced modulo
`2^64`; consequently, for a timestamp `ts` with `ts % 2^64 = 0`, a successful
issue leaves `issuedAt = 0`, `verify` reports the credential as not issued,
and a later issue of the same docHash succeeds again — the issued-at-most-once
discipline is violated for that hash. -/
theorem issue_truncates_timestamp (s : State) (caller : Address) (ts : Nat) (h : Hash)
    (hrole : hasRole s ISSUER_ROLE caller = true)
    (hun : (s.records h).issuedAt = 0) :
    ((exec s (.issue caller ts h)).records h).issuedAt = ts % UINT64_MOD
    ∧ (ts % UINT64_MOD = 0 →
        stepOk s (.issue caller ts h) = true
        ∧ ((exec s (.issue caller ts h)).records h).issuedAt = 0
        ∧ (verify (exec s (.issue caller ts h)) h).issued = false
        ∧ ∀ ts' : Nat, stepOk (exec s (.issue caller ts h)) (.issue caller ts' h) = true) := by
  rw [exec_issue_eq s caller ts h hrole hun]
  refine ⟨by simp, ?_⟩
  intro hz
  refine ⟨issue_ok_of_conditions s caller ts h hrole hun, by simp [hz],
    by simp [verify, hz], ?_⟩
  intro ts'
  apply issue_ok_of_conditions
  · exact hrole
  · simp [hz]

/-- Witness for C10: issuing hash `5` at timestamp `2^64` stores `issuedAt = 0`
and a re-issue succeeds. -/
theorem issue_truncates_timestamp_witness :
    hasRole (initialState 1) ISSUER_ROLE 1 = true
    ∧ ((initialState 1).records 5).issuedAt = 0
    ∧ (((exec (initialState 1) (.issue 1 (2 ^ 64) 5)).records 5).issuedAt
          = 2 ^ 64 % UINT64_MOD
      ∧ (2 ^ 64 % UINT64_MOD = 0 →
          stepOk (initialState 1) (.issue 1 (2 ^ 64) 5) = true
          ∧ ((exec (initialState 1) (.issue 1 (2 ^ 64) 5)).records 5).issuedAt = 0
          ∧ (verify (exec (initialState 1) (.issue 1 (2 ^ 64) 5)) 5).issued = false
          ∧ ∀ ts' : Nat,
              stepOk (exec (initialState 1) (.issue 1 (2 ^ 64) 5)) (.issue 1 ts' 5) = true))
    ∧ 2 ^ 64 % UINT64_MOD = 0 :=
  ⟨by decide, by decide,
    issue_truncates_timestamp (initialState 1) 1 (2 ^ 64) 5 (by decide) (by decide),
    by decide⟩

end CredentialRegistry
